import Mathlib

/-!
Verification development for the FB Content Blocker content-filtering engine
(`content.js`, `src/utils/regex-validator.js`, options page script).

The JavaScript source is shallowly embedded as executable Lean definitions:
* `escapeRegExp`, `KeywordMatcher`, `compiledRegexOf`, `KeywordMatcher.matches`
  embed the `KeywordMatcher` class (content.js lines 54-166);
* `normalizeText` and `BUILT_IN_ADS_PATTERNS` embed lines 15-38;
* the DOM scan (`filterContent`, `hidePost`, `hideComment`, `resetHiddenPosts`,
  reveal-button handlers) is embedded as a transition system over an explicit
  document state (`Doc`, `EngineOp`);
* `RegexValidator.validate` embeds src/utils/regex-validator.js, and
  `addKeyword` the options-page rule-creation path.

JavaScript regular expressions are modelled as follows: the merged literal
pattern `(?<![a-zA-Z0-9])(?:...)(?![a-zA-Z0-9])` compiled with flags `giu` is
given its denotational semantics (`alternationTest`): a match exists at some
position iff one alternative, decoded back from its escaped form
(`decodePiece`, implementing the regex rule that a backslash-escaped
metacharacter denotes that literal character), occurs there case-insensitively
with both flanking characters (when present) not ASCII alphanumeric.
Case-insensitive comparison is modelled by ASCII case folding (`Char.toLower`),
which agrees with the `i` flag on the ASCII texts considered here.  User-typed
pattern rules (`isRegex: true`) have no fixed shape, so their compiled
behaviour is kept abstract as a `RegexEngine` oracle (syntactic validity plus a
test function), exactly the two ways the source consumes them.
`String.prototype.includes` is `containsSub`; NFD decomposition inside
`normalizeText` is a character-level table covering the characters occurring in
the built-in pattern list (identity elsewhere); every combining mark these
characters produce lies in U+0300-U+036F, so the source's strip step removes
all of them independently of canonical ordering.
-/

/-- ASCII letters and digits, the class `[a-zA-Z0-9]` used by the compiled
pattern's lookbehind/lookahead (content.js line 107). -/
def isAsciiAlnum (c : Char) : Bool :=
  ('a' ≤ c && c ≤ 'z') || ('A' ≤ c && c ≤ 'Z') || ('0' ≤ c && c ≤ '9')

/-- The regex metacharacters escaped by the source's
`text.replace(/[.*+?^${}()|[\]\\]/g, '\\$&')` (content.js line 95).
The brace characters are written numerically (code points 123 and 125). -/
def isMetaChar (c : Char) : Bool :=
  c = '.' || c = '*' || c = '+' || c = '?' || c = '^' || c = '$' ||
  c.toNat = 123 || c.toNat = 125 ||
  c = '(' || c = ')' || c = '|' || c = '[' || c = ']' || c = '\\'

/-- Character-level escaping: a metacharacter becomes backslash followed by
itself, any other character is kept (content.js line 95). -/
def escapeChar (c : Char) : List Char :=
  if isMetaChar c then ['\\', c] else [c]

/-- Escape a whole keyword, list form. -/
def escapeList : List Char → List Char
  | [] => []
  | c :: rest => escapeChar c ++ escapeList rest

/-- `text.replace(/[.*+?^${}()|[\]\\]/g, '\\$&')` from content.js line 95. -/
def escapeRegExp (s : String) : String :=
  String.mk (escapeList s.data)

/-- Decode one alternative of the merged pattern back to the literal it
denotes under JavaScript regex semantics: a backslash followed by a
metacharacter denotes that character literally; a plain non-metacharacter
denotes itself; anything else (dangling backslash, unescaped metacharacter,
escape sequence with other meaning) is not a pure literal and decoding fails. -/
def decodePiece : List Char → Option (List Char)
  | [] => some []
  | c :: rest =>
    if c = '\\' then
      match rest with
      | [] => none
      | d :: rest2 =>
        if isMetaChar d then (decodePiece rest2).map (fun l => d :: l) else none
    else if isMetaChar c then none
    else (decodePiece rest).map (fun l => c :: l)

/-- True when position `i` of `t` holds no ASCII alphanumeric character
(positions past the end vacuously qualify, like string start/end for the
lookarounds). -/
def noAlnumAt (t : List Char) (i : Nat) : Bool :=
  match t.get? i with
  | some c => !(isAsciiAlnum c)
  | none => true

/-- Case-insensitive list equality via ASCII case folding, the model of the
`i` regex flag. -/
def ciEq (a b : List Char) : Bool :=
  a.map Char.toLower = b.map Char.toLower

/-- The literal `lit` matches text `t` at position `i` with the source's
boundary conditions: the slice of `t` at `i` equals `lit` case-insensitively,
the character before `i` (if any) is not ASCII alphanumeric, and the character
after the slice (if any) is not ASCII alphanumeric. -/
def litMatchAt (t : List Char) (i : Nat) (lit : List Char) : Bool :=
  ciEq ((t.drop i).take lit.length) lit &&
  (decide (i = 0) || noAlnumAt t (i - 1)) &&
  noAlnumAt t (i + lit.length)

/-- One alternative of the merged pattern, tested at position `i`: decode the
escaped piece and match it literally with boundaries. -/
def pieceTestAt (p : String) (t : List Char) (i : Nat) : Bool :=
  match decodePiece p.data with
  | some lit => litMatchAt t i lit
  | none => false

/-- Semantics of `compiledRegex.test(text)` for the merged pattern
`(?<![a-zA-Z0-9])(?:p1|p2|...)(?![a-zA-Z0-9])` with `lastIndex` reset to 0
(content.js lines 107, 112, 139-143): a match exists at some position.
The source resets `lastIndex` before every `test`, so the stateless
"matches anywhere" semantics is the faithful one. -/
def alternationTest (ps : List String) (text : String) : Bool :=
  (List.range (text.data.length + 1)).any fun i =>
    ps.any fun p => pieceTestAt p text.data i

/-- The property stated by the specification's boundary-correctness sentence,
with the case-insensitivity the compiled `i` flag actually applies:
`R` occurs in `T` (up to ASCII case) flanked on both sides by
position boundaries or non-alphanumeric characters. -/
def occursCI (R T : String) : Bool :=
  (List.range (T.data.length + 1)).any fun i => litMatchAt T.data i R.data

/-- The property exactly as the claim words it, with a literal (case-exact)
occurrence of `R` in `T` flanked by non-alphanumerics or string ends. -/
def occursExact (R T : String) : Bool :=
  (List.range (T.data.length + 1)).any fun i =>
    (T.data.drop i).take R.data.length = R.data &&
    (decide (i = 0) || noAlnumAt T.data (i - 1)) &&
    noAlnumAt T.data (i + R.data.length)

/-- Substring containment, the model of `String.prototype.includes`. -/
def containsSub (hay needle : List Char) : Bool :=
  match hay with
  | [] => needle.isEmpty
  | _ :: t => needle.isPrefixOf hay || containsSub t needle

/-- NFD canonical decomposition, tabulated for the characters occurring in
`BUILT_IN_ADS_PATTERNS` (identity on every other character).  Combining marks
are written by code point: 768 = U+0300 grave, 769 = U+0301 acute,
770 = U+0302 circumflex, 795 = U+031B horn, 803 = U+0323 dot below. -/
def nfdChar (c : Char) : List Char :=
  if c = 'à' then ['a', Char.ofNat 768]
  else if c = 'ạ' then ['a', Char.ofNat 803]
  else if c = 'ấ' then ['a', Char.ofNat 770, Char.ofNat 769]
  else if c = 'ế' then ['e', Char.ofNat 770, Char.ofNat 769]
  else if c = 'ề' then ['e', Char.ofNat 770, Char.ofNat 768]
  else if c = 'ộ' then ['o', Char.ofNat 803, Char.ofNat 770]
  else if c = 'ợ' then ['o', Char.ofNat 795, Char.ofNat 803]
  else if c = 'ư' then ['u', Char.ofNat 795]
  else [c]

/-- The combining diacritical marks block U+0300-U+036F stripped by
`replace(/[̀-ͯ]/g, '')` (content.js line 34). -/
def isCombiningMark (c : Char) : Bool :=
  768 ≤ c.toNat && c.toNat ≤ 879

/-- `toLowerCase` restricted to the characters in play: ASCII lowering plus
U+0110 (D with stroke) to U+0111, its JavaScript lowercase. -/
def jsToLower (c : Char) : Char :=
  if c.toNat = 272 then Char.ofNat 273 else c.toLower

/-- `replace(/đ/g, 'd')` (content.js line 36); U+0111 is the d with stroke. -/
def mapDStroke (c : Char) : Char :=
  if c.toNat = 273 then 'd' else c

/-- `replace(/Đ/g, 'D')` (content.js line 37); U+0110 is the D with stroke. -/
def mapDStrokeUpper (c : Char) : Char :=
  if c.toNat = 272 then 'D' else c

/-- `normalizeText` from content.js lines 31-38: NFD decomposition, strip the
combining marks block, lowercase, then the two stroke-letter replacements. -/
def normalizeText (s : String) : String :=
  String.mk
    (((((s.data.flatMap nfdChar).filter fun c => !(isCombiningMark c)).map
      jsToLower).map mapDStroke).map mapDStrokeUpper)

/-- The fixed built-in sponsored/ads phrase list, content.js lines 15-28. -/
def BUILT_IN_ADS_PATTERNS : List String :=
  ["Được tài trợ",
   "Đề xuất cho bạn",
   "Bài viết được tài trợ",
   "Nội dung được tài trợ",
   "Sponsored",
   "Suggested for you",
   "Paid partnership",
   "Duoc tai tro",
   "De xuat cho ban"]

/-- The built-in check applied to one text node (content.js lines 479-486):
some built-in pattern is contained in the text, either after normalization of
both sides or verbatim. -/
def builtinHit (text : String) : Bool :=
  BUILT_IN_ADS_PATTERNS.any fun p =>
    containsSub (normalizeText text).data (normalizeText p).data ||
    containsSub text.data p.data

/-- A user rule as stored: keyword text plus the regex flag
(content.js lines 85-86 read exactly these two fields). -/
structure KeywordRule where
  text : String
  isRegex : Bool
deriving DecidableEq

/-- Abstract semantics of the JavaScript regex engine for user-typed pattern
rules, the two ways the source consumes them: `new RegExp(p, 'giu')` either
throws (`valid p = false`, content.js lines 89-93) or yields an object whose
`test` on a given text returns a boolean. -/
structure RegexEngine where
  valid : String → Bool
  test : String → String → Bool

/-- `MAX_KEYWORDS` from content.js line 54. -/
def MAX_KEYWORDS : Nat := 5000

/-- `MAX_PATTERN_SIZE` from content.js line 55. -/
def MAX_PATTERN_SIZE : Nat := 1024 * 1024

/-- The `KeywordMatcher` inputs: user keywords and whitelist
(content.js lines 57-65). -/
structure KeywordMatcher where
  keywords : List KeywordRule
  whitelist : List String
deriving DecidableEq

/-- `get count()` from content.js lines 163-165. -/
def KeywordMatcher.count (m : KeywordMatcher) : Nat :=
  m.keywords.length

/-- The keyword slice taken by compile (content.js line 77). -/
def safeKeywords (m : KeywordMatcher) : List KeywordRule :=
  m.keywords.take MAX_KEYWORDS

/-- The regex-rule patterns kept by compile: regex-flagged keywords whose
pattern compiles, in order (content.js lines 88-93). -/
def regexPatternsOf (eng : RegexEngine) (m : KeywordMatcher) : List String :=
  (safeKeywords m).filterMap fun k =>
    if k.isRegex && eng.valid k.text then some k.text else none

/-- The escaped plain-keyword pieces, in order (content.js lines 94-96). -/
def plainPiecesOf (m : KeywordMatcher) : List String :=
  (safeKeywords m).filterMap fun k =>
    if k.isRegex then none else some (escapeRegExp k.text)

/-- `Array.prototype.join('|')` over the escaped pieces. -/
def joinBar : List String → String
  | [] => ""
  | [p] => p
  | p :: rest => p ++ "|" ++ joinBar rest

/-- The merged pattern string built at content.js line 107. -/
def mergedPattern (pieces : List String) : String :=
  "(?<![a-zA-Z0-9])(?:" ++ joinBar pieces ++ ")(?![a-zA-Z0-9])"

/-- `this.compiledRegex` after compile (content.js lines 103-114): present
(holding the alternatives) only when there is at least one plain keyword and
the merged pattern is within `MAX_PATTERN_SIZE`; otherwise null. -/
def compiledRegexOf (m : KeywordMatcher) : Option (List String) :=
  let pieces := plainPiecesOf m
  if pieces.isEmpty then none
  else if MAX_PATTERN_SIZE < (mergedPattern pieces).length then none
  else some pieces

/-- `this.whitelistRegex` after compile (content.js lines 72-74 and 117-123):
compile returns before reaching the whitelist when there are no keywords, and
builds the boundary-aware alternation of escaped whitelist texts otherwise
(no count or size limit is applied to the whitelist). -/
def whitelistRegexOf (m : KeywordMatcher) : Option (List String) :=
  if m.keywords.isEmpty then none
  else if m.whitelist.isEmpty then none
  else some (m.whitelist.map escapeRegExp)

/-- The whitelist test performed first inside `matches`
(content.js lines 131-136). -/
def whitelistHit (m : KeywordMatcher) (text : String) : Bool :=
  match whitelistRegexOf m with
  | some ws => alternationTest ws text
  | none => false

/-- `KeywordMatcher.matches` from content.js lines 126-155: empty text never
matches; with neither a compiled literal regex nor any pattern rule the result
is false; a whitelist hit silences everything; otherwise the merged literal
regex is tried, then each pattern rule in order. -/
def KeywordMatcher.matches (eng : RegexEngine) (m : KeywordMatcher)
    (text : String) : Bool :=
  if text.isEmpty then false
  else if (compiledRegexOf m).isNone && (regexPatternsOf eng m).isEmpty then
    false
  else if whitelistHit m text then false
  else if (match compiledRegexOf m with
           | some ps => alternationTest ps text
           | none => false) then true
  else (regexPatternsOf eng m).any fun p => eng.test p text

/-- Whitespace for the `\s` class in the ReDoS screening regexes
(the characters relevant to pattern strings). -/
def isWs (c : Char) : Bool :=
  c = ' ' || c = '\t' || c = '\n' || c = '\r' || c.toNat = 12 || c.toNat = 11

/-- A `+` or `*` quantifier character, the class `[+*]`. -/
def isQuantChar (c : Char) : Bool :=
  c = '+' || c = '*'

/-- `String.prototype.trim`: strip whitespace from both ends. -/
def jsTrim (s : String) : String :=
  String.mk (((s.data.dropWhile isWs).reverse.dropWhile isWs).reverse)

/-- All ways to consume a (possibly empty) prefix of characters satisfying
`p`: the list of remaining suffixes.  This gives the existential backtracking
semantics of a `X*` regex piece. -/
def dropsWhile (p : Char → Bool) : List Char → List (List Char)
  | [] => [[]]
  | c :: t => (c :: t) :: (if p c then dropsWhile p t else [])

/-- Tail of the first ReDoS screening regex after the opening parenthesis:
`\s* [^)]* [+*] \s* \) \s* [+*]`. -/
def redos1After (l : List Char) : Bool :=
  (dropsWhile isWs l).any fun r1 =>
    (dropsWhile (fun c => !(c = ')')) r1).any fun r2 =>
      match r2 with
      | q :: r3 =>
        isQuantChar q &&
        ((dropsWhile isWs r3).any fun r4 =>
          match r4 with
          | ')' :: r5 =>
            (dropsWhile isWs r5).any fun r6 =>
              match r6 with
              | q2 :: _ => isQuantChar q2
              | [] => false
          | _ => false)
      | [] => false

/-- `/\(\s*[^)]*[+*]\s*\)\s*[+*]/.test(pattern)`: the nested-quantifier shape
screen, regex-validator.js line 7. -/
def redos1 (pattern : String) : Bool :=
  (List.range pattern.data.length).any fun i =>
    match pattern.data.drop i with
    | '(' :: rest => redos1After rest
    | _ => false

/-- Tail of the second ReDoS screening regex after the opening parenthesis:
`\s* [^)|]* \| \s* [^)]* \) \s* [+*]`. -/
def redos2After (l : List Char) : Bool :=
  (dropsWhile isWs l).any fun r1 =>
    (dropsWhile (fun c => !(c = ')') && !(c = '|')) r1).any fun r2 =>
      match r2 with
      | '|' :: r3 =>
        (dropsWhile isWs r3).any fun r4 =>
          (dropsWhile (fun c => !(c = ')')) r4).any fun r5 =>
            match r5 with
            | ')' :: r6 =>
              (dropsWhile isWs r6).any fun r7 =>
                match r7 with
                | q :: _ => isQuantChar q
                | [] => false
            | _ => false
      | _ => false

/-- `/\(\s*[^)|]*\|\s*[^)]*\)\s*[+*]/.test(pattern)`: the quantified
overlapping-alternation shape screen, regex-validator.js line 8. -/
def redos2 (pattern : String) : Bool :=
  (List.range pattern.data.length).any fun i =>
    match pattern.data.drop i with
    | '(' :: rest => redos2After rest
    | _ => false

/-- Abstract interface to the engine facts `RegexValidator.validate` consults
that are outside a pure embedding: whether `new RegExp(pattern, 'u')` throws
(`syntaxOk`), and the wall-clock milliseconds of the probe
`re.test('a'.repeat(30))` (`probeMs`). -/
structure ProbeEngine where
  syntaxOk : String → Bool
  probeMs : String → Nat

/-- The `{valid, error}` result object of `RegexValidator.validate`. -/
structure ValidationResult where
  valid : Bool
  error : Option String
deriving DecidableEq

/-- `RegexValidator.validate(pattern, maxDuration)` from regex-validator.js
lines 17-49: empty pattern rejected; then the syntax gate; then the two ReDoS
shape screens; then the timed probe against the repeated-character string. -/
def RegexValidator.validate (eng : ProbeEngine) (pattern : String)
    (maxDuration : Nat) : ValidationResult :=
  if pattern.isEmpty then ⟨false, some "Pattern required"⟩
  else if !(eng.syntaxOk pattern) then ⟨false, some "Invalid regex"⟩
  else if redos1 pattern || redos2 pattern then
    ⟨false, some "Pattern may cause performance issues"⟩
  else if maxDuration < eng.probeMs pattern then ⟨false, some "Pattern too slow"⟩
  else ⟨true, none⟩

/-- Case-insensitive string equality used by the duplicate check in the
options page (`toLowerCase()` comparison). -/
def ciStrEq (a b : String) : Bool :=
  ciEq a.data b.data

/-- `addKeyword` from the options page script: empty input ignored; a
regex-flagged entry failing `RegexValidator.validate` (called with the default
100ms budget) is rejected; a case-insensitive duplicate is rejected; otherwise
the rule is appended to the stored keyword list. -/
def addKeyword (eng : ProbeEngine) (keywords : List KeywordRule)
    (input : String) (isRegexFlag : Bool) : List KeywordRule :=
  let text := jsTrim input
  if text.isEmpty then keywords
  else if isRegexFlag && !(RegexValidator.validate eng text 100).valid then
    keywords
  else if keywords.any fun k => ciStrEq k.text text then keywords
  else keywords ++ [⟨text, isRegexFlag⟩]

/-- The value of the `data-fb-blocked` (or `data-fb-comment-blocked`) marker:
absent, `'true'` (hidden), or `'shown'` (revealed by the user). -/
inductive FbMark where
  | absent
  | hiddenTrue
  | shown
deriving DecidableEq

/-- A marker value that makes the scan skip the container:
`=== 'true' || === 'shown'`. -/
def isBlockedMark (v : FbMark) : Bool :=
  v = FbMark.hiddenTrue || v = FbMark.shown

/-- The per-element state the engine reads and writes: the post marker
`data-fb-blocked` (`mark`), the comment marker `data-fb-comment-blocked`
(`cmark`), the inline `style.display`, the saved `data-original-display`,
whether a post or comment placeholder sibling is currently inserted, and
whether the element has been removed from the document
(`Element.remove()`). -/
structure DomNode where
  mark : FbMark
  cmark : FbMark
  display : String
  originalDisplay : Option String
  placeholder : Bool
  cplaceholder : Bool
  removed : Bool
deriving DecidableEq

instance : Inhabited DomNode :=
  ⟨⟨FbMark.absent, FbMark.absent, "", none, false, false, false⟩⟩

/-- The document plus the block-event counter (`Stats.increment` calls). -/
structure Doc where
  nodes : List DomNode
  stats : Nat
deriving DecidableEq

/-- Node lookup by index (out-of-range yields the default fresh node). -/
def nodeAt (l : List DomNode) (i : Nat) : DomNode :=
  (l.get? i).getD default

/-- Update one node in place. -/
def setNode (l : List DomNode) (i : Nat) (f : DomNode → DomNode) :
    List DomNode :=
  l.set i (f (nodeAt l i))

/-- The post marker of node `i`. -/
def markOf (l : List DomNode) (i : Nat) : FbMark :=
  (nodeAt l i).mark

/-- `hidePost` from content.js lines 605-639: always emits one block event
(`Stats.increment`); with `showPlaceholder` false the container is removed
from the document outright (no marker, no saved display, no placeholder);
otherwise the marker is set to `'true'`, the current display value saved, the
element hidden, and a placeholder with a reveal button inserted. -/
def hidePost (showPlaceholder : Bool) (d : Doc) (c : Nat) : Doc :=
  if !showPlaceholder then
    ⟨setNode d.nodes c (fun n => { n with removed := true }), d.stats + 1⟩
  else
    ⟨setNode d.nodes c (fun n =>
      { n with
        mark := FbMark.hiddenTrue
        originalDisplay := some n.display
        display := "none"
        placeholder := true }), d.stats + 1⟩

/-- `hideComment` from content.js lines 567-603, same shape as `hidePost` but
on the comment marker and comment placeholder. -/
def hideComment (showPlaceholder : Bool) (d : Doc) (c : Nat) : Doc :=
  if !showPlaceholder then
    ⟨setNode d.nodes c (fun n => { n with removed := true }), d.stats + 1⟩
  else
    ⟨setNode d.nodes c (fun n =>
      { n with
        cmark := FbMark.hiddenTrue
        originalDisplay := some n.display
        display := "none"
        cplaceholder := true }), d.stats + 1⟩

/-- A candidate fragment delivered by a document query: the element itself
(`elem`), the container `findPostContainer` resolves it to, its text content,
and its ancestor chain (used by the comment scan's
`closest('[data-fb-blocked="true"]')` check).  A removed element is never
returned by a document query and the ancestor walk never reaches a removed
container, which the scan functions encode as skip guards. -/
structure Fragment where
  elem : Nat
  container : Nat
  text : String
  ancestors : List Nat
deriving DecidableEq

/-- The accumulator of one `filterContent` run: the document, the
`processedContainers` set, and (instrumentation for the ordering property)
the number of `matcher.matches` calls made so far. -/
structure ScanAcc where
  doc : Doc
  processed : List Nat
  calls : Nat
deriving DecidableEq

/-- Method 1 of `filterContent` (content.js lines 452-467), one selector-found
post: skip if already marked; otherwise read its text and call the matcher;
on a match resolve the container, re-check its marker and the processed set,
then hide it. -/
def processSelectorPost (showPlaceholder : Bool) (eng : RegexEngine)
    (m : KeywordMatcher) (a : ScanAcc) (f : Fragment) : ScanAcc :=
  if (nodeAt a.doc.nodes f.elem).removed then a
  else if isBlockedMark (markOf a.doc.nodes f.elem) then a
  else if KeywordMatcher.matches eng m f.text then
    if (nodeAt a.doc.nodes f.container).removed then
      ⟨a.doc, a.processed, a.calls + 1⟩
    else if isBlockedMark (markOf a.doc.nodes f.container) then
      ⟨a.doc, a.processed, a.calls + 1⟩
    else if a.processed.contains f.container then
      ⟨a.doc, a.processed, a.calls + 1⟩
    else
      ⟨hidePost showPlaceholder a.doc f.container,
       f.container :: a.processed, a.calls + 1⟩
  else ⟨a.doc, a.processed, a.calls + 1⟩

/-- Method 2 of `filterContent` (content.js lines 474-512), one text node:
trimmed text that is empty or longer than 100 is skipped; if a built-in
pattern hits, the container marker and processed set are consulted and the
container hidden (no user-keyword check); otherwise the user matcher is
consulted (when there are keywords) with the same container guards. -/
def processTextNode (showPlaceholder : Bool) (eng : RegexEngine)
    (m : KeywordMatcher) (a : ScanAcc) (f : Fragment) : ScanAcc :=
  if (nodeAt a.doc.nodes f.elem).removed then a
  else if (jsTrim f.text).isEmpty || 100 < (jsTrim f.text).length then a
  else if builtinHit (jsTrim f.text) then
    if (nodeAt a.doc.nodes f.container).removed then a
    else if isBlockedMark (markOf a.doc.nodes f.container) then a
    else if a.processed.contains f.container then a
    else
      ⟨hidePost showPlaceholder a.doc f.container,
       f.container :: a.processed, a.calls⟩
  else if m.count = 0 then a
  else if KeywordMatcher.matches eng m (jsTrim f.text) then
    if (nodeAt a.doc.nodes f.container).removed then
      ⟨a.doc, a.processed, a.calls + 1⟩
    else if isBlockedMark (markOf a.doc.nodes f.container) then
      ⟨a.doc, a.processed, a.calls + 1⟩
    else if a.processed.contains f.container then
      ⟨a.doc, a.processed, a.calls + 1⟩
    else
      ⟨hidePost showPlaceholder a.doc f.container,
       f.container :: a.processed, a.calls + 1⟩
  else ⟨a.doc, a.processed, a.calls + 1⟩

/-- One comment in `filterComments` (content.js lines 548-564): skip if its
comment marker is set or it sits inside a post currently marked `'true'`;
otherwise call the matcher and hide the comment itself on a match. -/
def processComment (showPlaceholder : Bool) (eng : RegexEngine)
    (m : KeywordMatcher) (a : ScanAcc) (f : Fragment) : ScanAcc :=
  if (nodeAt a.doc.nodes f.elem).removed then a
  else if isBlockedMark ((nodeAt a.doc.nodes f.elem).cmark) then a
  else if f.ancestors.any (fun x => markOf a.doc.nodes x = FbMark.hiddenTrue)
  then a
  else if KeywordMatcher.matches eng m f.text then
    ⟨hideComment showPlaceholder a.doc f.elem, a.processed, a.calls + 1⟩
  else ⟨a.doc, a.processed, a.calls + 1⟩

/-- `filterComments` (content.js lines 523-565) with its enable guards. -/
def filterComments (enabled blockComments showPlaceholder : Bool)
    (eng : RegexEngine) (m : KeywordMatcher) (comFs : List Fragment)
    (a : ScanAcc) : ScanAcc :=
  if !enabled || !blockComments || m.count = 0 then a
  else comFs.foldl (processComment showPlaceholder eng m) a

/-- `filterContent` (content.js lines 410-521): nothing runs unless the
feature is enabled and at least one user keyword exists; then the selector
scan, the text-node scan (built-in patterns plus user keywords), and the
comment scan run in order over one shared `processedContainers` set.
Returns the resulting document and the number of matcher calls made. -/
def filterContent (enabled blockComments showPlaceholder : Bool)
    (eng : RegexEngine) (m : KeywordMatcher)
    (selFs nodeFs comFs : List Fragment) (d : Doc) : Doc × Nat :=
  if !enabled || m.count = 0 then (d, 0)
  else
    let a0 : ScanAcc := ⟨d, [], 0⟩
    let a1 := selFs.foldl (processSelectorPost showPlaceholder eng m) a0
    let a2 := nodeFs.foldl (processTextNode showPlaceholder eng m) a1
    let a3 := filterComments enabled blockComments showPlaceholder eng m comFs a2
    (a3.doc, a3.calls)

/-- The post placeholder's Show button handler (content.js lines 631-635):
restore the saved display, set the marker to `'shown'`, remove the
placeholder.  The button exists only while the placeholder does, and removed
elements have no live placeholder. -/
def revealPost (d : Doc) (c : Nat) : Doc :=
  if (nodeAt d.nodes c).removed || !(nodeAt d.nodes c).placeholder then d
  else
    ⟨setNode d.nodes c (fun n =>
      { n with
        display := n.originalDisplay.getD ""
        mark := FbMark.shown
        placeholder := false }), d.stats⟩

/-- The comment placeholder's Show button handler
(content.js lines 594-599). -/
def revealComment (d : Doc) (c : Nat) : Doc :=
  if (nodeAt d.nodes c).removed || !(nodeAt d.nodes c).cplaceholder then d
  else
    ⟨setNode d.nodes c (fun n =>
      { n with
        display := n.originalDisplay.getD ""
        cmark := FbMark.shown
        cplaceholder := false }), d.stats⟩

/-- `resetHiddenPosts` (content.js lines 641-661): every in-document
placeholder is removed; every in-document element carrying a post marker has
its display restored and the marker and saved display deleted; likewise for
comment markers.  Removed elements are no longer in the document and are
untouched. -/
def resetHiddenPosts (d : Doc) : Doc :=
  ⟨d.nodes.map fun n =>
    if n.removed then n
    else
      let n1 := { n with placeholder := false, cplaceholder := false }
      let n2 :=
        if n1.mark = FbMark.absent then n1
        else
          { n1 with
            display := n1.originalDisplay.getD ""
            mark := FbMark.absent
            originalDisplay := none }
      if n2.cmark = FbMark.absent then n2
      else
        { n2 with
          display := n2.originalDisplay.getD ""
          cmark := FbMark.absent
          originalDisplay := none },
   d.stats⟩

/-- The operations the engine performs on the document over time: a full scan
(with the configuration and matcher in force at that moment), a click on a
post or comment reveal button, and the global reset. -/
inductive EngineOp where
  | scan (enabled blockComments showPlaceholder : Bool) (m : KeywordMatcher)
      (selFs nodeFs comFs : List Fragment)
  | revealP (c : Nat)
  | revealC (c : Nat)
  | reset
deriving DecidableEq

/-- Apply one engine operation to the document. -/
def runOp (eng : RegexEngine) (d : Doc) : EngineOp → Doc
  | EngineOp.scan e bc sp m selFs nodeFs comFs =>
    (filterContent e bc sp eng m selFs nodeFs comFs d).1
  | EngineOp.revealP c => revealPost d c
  | EngineOp.revealC c => revealComment d c
  | EngineOp.reset => resetHiddenPosts d

/-- Apply a sequence of engine operations. -/
def runOps (eng : RegexEngine) (d : Doc) (ops : List EngineOp) : Doc :=
  ops.foldl (runOp eng) d

/-- A regex-engine oracle for concrete instances whose rule sets contain no
pattern rules (every field is then irrelevant to the result). -/
def engW : RegexEngine := ⟨fun _ => true, fun _ _ => false⟩

/-- A probe-engine oracle under which every pattern is syntactically valid
and probes instantly; rejections under it are due to the shape screens. -/
def probeW : ProbeEngine := ⟨fun _ => true, fun _ => 0⟩

/-- An untouched document element. -/
def freshNode : DomNode := ⟨FbMark.absent, FbMark.absent, "", none, false, false, false⟩

/-- A container currently in the Hidden state (marker `'true'`, display saved,
placeholder inserted). -/
def hiddenNode : DomNode := ⟨FbMark.hiddenTrue, FbMark.absent, "none", some "", true, false, false⟩

/-- A container in the Shown state after a reveal click. -/
def shownNode : DomNode := ⟨FbMark.shown, FbMark.absent, "", none, false, false, false⟩

/-- A one-container document, untouched. -/
def d1 : Doc := ⟨[freshNode], 0⟩

/-- A two-element document: container 0 hidden, element 1 untouched. -/
def d2 : Doc := ⟨[hiddenNode, freshNode], 0⟩

/-- A matcher with the single literal rule "foo" and empty whitelist. -/
def mFoo : KeywordMatcher := ⟨[⟨"foo", false⟩], []⟩

/-- A matcher with literal rule "foo" and exception entry "Sponsored". -/
def mFooWl : KeywordMatcher := ⟨[⟨"foo", false⟩], ["Sponsored"]⟩

/-- A matcher with the single literal rule "book" and empty whitelist. -/
def mBook : KeywordMatcher := ⟨[⟨"book", false⟩], []⟩

/-- A text node reading "Sponsored" resolving to container 0. -/
def fragS : Fragment := ⟨0, 0, "Sponsored", []⟩

/-- A text node (element 1) reading "foo" resolving to container 0. -/
def fragFoo : Fragment := ⟨1, 0, "foo", []⟩

/-- Escaping round-trips: decoding an escaped keyword recovers exactly the
keyword, i.e. the escaped piece is a well-formed pattern fragment denoting
the literal keyword. -/
theorem decodePiece_escapeList (l : List Char) : decodePiece (escapeList l) = some l := by
  induction l with
  | nil => rfl
  | cons c rest ih =>
    by_cases hm : isMetaChar c
    · simp [escapeList, escapeChar, hm, decodePiece, ih]
    · have hb : c ≠ '\\' := by
        intro h
        rw [h] at hm
        exact hm (by decide)
      simp only [escapeList, escapeChar, hm, Bool.false_eq_true, if_false,
        List.singleton_append]
      unfold decodePiece
      rw [if_neg hb, if_neg (fun h => hm h), ih]
      rfl

/-- The merged-pattern semantics of a single escaped keyword is exactly
boundary-flanked case-insensitive literal occurrence. -/
theorem alternationTest_escape_single (w T : String) :
    alternationTest [escapeRegExp w] T = occursCI w T := by
  simp [alternationTest, occursCI, pieceTestAt, escapeRegExp, decodePiece_escapeList]

/-- C6 (confirmed): escaping safety — for every literal rule text `w`
(including ones full of metacharacters such as "c++" or "a.b(c)"), the
escaped form is a well-formed pure-literal pattern piece (decoding succeeds,
so compiling the merged alternation cannot throw), it denotes exactly the
literal text `w`, and the compiled alternation built from it matches a text
exactly when `w` itself occurs literally (case-insensitively,
boundary-flanked). -/
theorem escaping_safety (w : String) :
    decodePiece (escapeRegExp w).data = some w.data ∧
    ∀ T : String, alternationTest [escapeRegExp w] T = occursCI w T := by
  constructor
  · exact decodePiece_escapeList w.data
  · exact fun T => alternationTest_escape_single w T

/-- C10 (corrected): empty fragments never match, and a matcher with neither
a compiled literal regex nor any pattern rule matches nothing. -/
theorem empty_text_no_match :
    (∀ (eng : RegexEngine) (m : KeywordMatcher),
      KeywordMatcher.matches eng m "" = false) ∧
    (∀ (eng : RegexEngine) (m : KeywordMatcher) (text : String),
      compiledRegexOf m = none → regexPatternsOf eng m = [] →
      KeywordMatcher.matches eng m text = false) := by
  constructor
  · intro eng m
    have he : "".isEmpty = true := rfl
    simp [KeywordMatcher.matches, he]
  · intro eng m text h1 h2
    simp [KeywordMatcher.matches, h1, h2]

/-- Witness for `empty_text_no_match` at concrete inputs. -/
theorem empty_text_no_match_witness :
    KeywordMatcher.matches engW mFoo "" = false ∧
    KeywordMatcher.matches engW ⟨[], []⟩ "hello" = false := by
  constructor
  · exact empty_text_no_match.1 engW mFoo
  · exact empty_text_no_match.2 engW ⟨[], []⟩ "hello" (by decide) (by decide)

/-- Counterexample to C10 as stated: an empty-string rule does cause blocks —
it compiles into the merged pattern and matches any text with a position not
adjacent to an ASCII alphanumeric, here the one-space text. -/
theorem empty_rule_can_block :
    KeywordMatcher.matches engW ⟨[⟨"", false⟩], []⟩ " " = true := by decide

/-- C1 (amended part): inside `KeywordMatcher.matches` a whitelist hit
silences every user rule — literal and pattern alike — for that fragment. -/
theorem whitelist_precedence_user_rules (eng : RegexEngine) (m : KeywordMatcher)
    (text : String) (h : whitelistHit m text = true) :
    KeywordMatcher.matches eng m text = false := by
  simp [KeywordMatcher.matches, h]

/-- Witness for `whitelist_precedence_user_rules`: the exception "Sponsored"
matches this fragment, so the user rule "foo" inside it is silenced. -/
theorem whitelist_precedence_user_rules_witness :
    KeywordMatcher.matches engW mFooWl "Sponsored foo" = false := by
  exact whitelist_precedence_user_rules engW mFooWl "Sponsored foo" (by decide)

/-- Counterexample to C1 as stated: a fragment whose text matches an
exception rule is nonetheless hidden, because the built-in fuzzy check in
`filterContent` runs without consulting the whitelist: with whitelist
["Sponsored"] and user rule "foo", scanning the text node "Sponsored" hides
its container and emits a block event. -/
theorem builtin_check_ignores_whitelist :
    whitelistHit mFooWl "Sponsored" = true ∧
    markOf (filterContent true true true engW mFooWl [] [fragS] [] d1).1.nodes 0 =
      FbMark.hiddenTrue ∧
    (filterContent true true true engW mFooWl [] [fragS] [] d1).1.stats = 1 := by
  refine ⟨by decide, by decide, by decide⟩

/-- Rule sets within the count limit are untouched by the safety slice. -/
theorem safeKeywords_small (m : KeywordMatcher)
    (h : m.keywords.length ≤ MAX_KEYWORDS) : safeKeywords m = m.keywords := by
  unfold safeKeywords
  exact List.take_of_length_le h

/-- The plain pieces of a single-literal-rule matcher. -/
theorem singleRule_pieces (R : String) (wl : List String) :
    plainPiecesOf ⟨[⟨R, false⟩], wl⟩ = [escapeRegExp R] := by
  unfold plainPiecesOf
  rw [safeKeywords_small _ (by norm_num [MAX_KEYWORDS])]
  simp [List.filterMap]

/-- Escaping at most doubles the length of a keyword. -/
theorem escapeList_length_le (l : List Char) :
    (escapeList l).length ≤ 2 * l.length := by
  induction l with
  | nil => simp [escapeList]
  | cons c rest ih =>
    by_cases hm : isMetaChar c <;>
      simp [escapeList, escapeChar, hm, List.length_append] <;> omega

/-- Length of the merged pattern around a single piece: the fixed lookaround
scaffolding contributes 35 characters. -/
theorem mergedPattern_single_length (p : String) :
    (mergedPattern [p]).length = 35 + p.length := by
  have hj : joinBar [p] = p := rfl
  have h1 : ("(?<![a-zA-Z0-9])(?:" : String).length = 19 := by decide
  have h2 : (")(?![a-zA-Z0-9])" : String).length = 16 := by decide
  unfold mergedPattern
  rw [hj, String.length_append, String.length_append, h1, h2]
  omega

/-- A single literal rule within the data-model text bound always compiles:
the merged pattern stays far below `MAX_PATTERN_SIZE`. -/
theorem singleRule_compiled (R : String) (wl : List String)
    (hlen : R.length ≤ 500) :
    compiledRegexOf ⟨[⟨R, false⟩], wl⟩ = some [escapeRegExp R] := by
  unfold compiledRegexOf
  rw [singleRule_pieces]
  have h2 : (escapeRegExp R).length ≤ 2 * R.length := escapeList_length_le R.data
  have hsz : ¬ (MAX_PATTERN_SIZE < (mergedPattern [escapeRegExp R]).length) := by
    rw [mergedPattern_single_length]
    unfold MAX_PATTERN_SIZE
    omega
  simp [hsz]

/-- A single literal rule contributes no pattern-rule matchers. -/
theorem singleRule_patterns (eng : RegexEngine) (R : String) (wl : List String) :
    regexPatternsOf eng ⟨[⟨R, false⟩], wl⟩ = [] := by
  unfold regexPatternsOf
  rw [safeKeywords_small _ (by norm_num [MAX_KEYWORDS])]
  simp [List.filterMap]

/-- A nonempty literal never occurs (boundary-flanked) in the empty text. -/
theorem occursCI_nil (R : String) (hR : R ≠ "") : occursCI R "" = false := by
  have hRd : R.data ≠ [] := by
    intro h
    apply hR
    have hmk : R = String.mk R.data := rfl
    rw [hmk, h]
  have h0 : ("" : String).data = ([] : List Char) := rfl
  cases hd : R.data with
  | nil => exact absurd hd hRd
  | cons c cs => simp [occursCI, litMatchAt, ciEq, hd, h0]

/-- C3 (amended): boundary correctness of literal matching — for a nonempty
literal rule R within the data-model length bound, with no whitelist entry
matching the text, `matches` holds exactly when R occurs in T up to ASCII
case-insensitivity with the characters on both flanks of the occurrence (when
they exist) not ASCII letters or digits. -/
theorem boundary_literal_matching (eng : RegexEngine) (R T : String)
    (wl : List String) (hR : R ≠ "") (hlen : R.length ≤ 500)
    (hwl : whitelistHit ⟨[⟨R, false⟩], wl⟩ T = false) :
    KeywordMatcher.matches eng ⟨[⟨R, false⟩], wl⟩ T = occursCI R T := by
  by_cases hT : T = ""
  · subst hT
    have he : "".isEmpty = true := rfl
    rw [occursCI_nil R hR]
    simp [KeywordMatcher.matches, he]
  · have hTe : T.isEmpty = false := by
      cases h : T.isEmpty
      · rfl
      · exact absurd ((String.isEmpty_iff T).mp h) hT
    unfold KeywordMatcher.matches
    rw [singleRule_compiled R wl hlen, singleRule_patterns eng R wl]
    simp [hTe, hwl, alternationTest_escape_single]

/-- Witness for `boundary_literal_matching`: rule "book" against
"I read a book". -/
theorem boundary_literal_matching_witness :
    KeywordMatcher.matches engW ⟨[⟨"book", false⟩], []⟩ "I read a book" =
      occursCI "book" "I read a book" ∧
    occursCI "book" "I read a book" = true := by
  exact ⟨boundary_literal_matching engW "book" "I read a book" []
    (by decide) (by decide) (by decide), by decide⟩

/-- Counterexample to C3 as stated: matching is case-insensitive (the `i`
flag), so rule "book" matches the text "Book" although "book" does not occur
in "Book" literally — the exact-occurrence iff of the claim fails. -/
theorem literal_matching_case_insensitive :
    KeywordMatcher.matches engW mBook "Book" = true ∧
    occursExact "book" "Book" = false := by
  exact ⟨by decide, by decide⟩

/-- C7 (confirmed): unsafe pattern rejection — `validate` returns an invalid
result (never Ok) for every syntactically invalid pattern, for every pattern
matching either catastrophic-backtracking shape screen, and for every pattern
whose probe run exceeds the wall-clock budget; and a pattern rejected by
`validate` (at the default 100ms budget used by the options page) is never
added to the rule set, hence never compiled into a live matcher. -/
theorem unsafe_pattern_rejection (eng : ProbeEngine) (p : String) (md : Nat)
    (kws : List KeywordRule)
    (h : eng.syntaxOk p = false ∨ redos1 p = true ∨ redos2 p = true ∨
      md < eng.probeMs p) :
    (RegexValidator.validate eng p md).valid = false ∧
    ((RegexValidator.validate eng (jsTrim p) 100).valid = false →
      addKeyword eng kws p true = kws) := by
  constructor
  · unfold RegexValidator.validate
    by_cases h0 : p.isEmpty
    · simp [h0]
    · by_cases h1 : eng.syntaxOk p
      · by_cases h2 : redos1 p || redos2 p
        · simp [h0, h1, h2]
        · by_cases h3 : md < eng.probeMs p
          · simp [h0, h1, h2, h3]
          · rcases h with h | h | h | h
            · rw [h] at h1
              simp at h1
            · rw [h] at h2
              exact absurd (by simp) h2
            · rw [h] at h2
              exact absurd (by simp) h2
            · exact absurd h h3
      · simp [h0, h1]
  · intro hv
    unfold addKeyword
    by_cases ht : (jsTrim p).isEmpty
    · simp [ht]
    · simp [ht, hv]

/-- Witness for `unsafe_pattern_rejection`: the nested-quantifier pattern
"(a+)+b" and the overlapping-alternation pattern "(a|a)*" are both rejected
by the shape screens, and "(a+)+b" is not added to the rule set. -/
theorem unsafe_pattern_rejection_witness :
    (RegexValidator.validate probeW "(a+)+b" 100).valid = false ∧
    (RegexValidator.validate probeW "(a|a)*" 100).valid = false ∧
    addKeyword probeW [] "(a+)+b" true = [] := by
  have h1 := unsafe_pattern_rejection probeW "(a+)+b" 100 []
    (Or.inr (Or.inl (by decide)))
  have h2 := unsafe_pattern_rejection probeW "(a|a)*" 100 []
    (Or.inr (Or.inr (Or.inl (by decide))))
  have htrim : jsTrim "(a+)+b" = "(a+)+b" := by decide
  exact ⟨h1.1, h2.1, h1.2 (by rw [htrim]; exact h1.1)⟩

/-- C2 (code bug): the built-in sponsored check does hit the text "Sponsored",
yet with zero user keywords `filterContent` returns at its top guard
(`matcher.count === 0`), so the scan changes nothing: the fragment's container
stays untouched and no block event is emitted, contradicting the claim (and
the source's own comments) that built-in phrases are blocked independently of
user configuration. -/
theorem builtin_rules_inactive_without_user_keywords :
    builtinHit "Sponsored" = true ∧
    KeywordMatcher.count ⟨[], []⟩ = 0 ∧
    filterContent true true true engW ⟨[], []⟩ [] [fragS] [] d1 = (d1, 0) := by
  exact ⟨by decide, rfl, by decide⟩

/-- C4 (amended): rescanning a Hidden container is a no-op — no block event,
no visibility-record change; in the selector scan the element's record is
consulted before the matcher call, but in the text-node scan the container's
record is consulted only after the built-in or keyword match. -/
theorem scan_noop_on_hidden_container (sp : Bool) (eng : RegexEngine)
    (m : KeywordMatcher) (a : ScanAcc) (f : Fragment) :
    (isBlockedMark (markOf a.doc.nodes f.elem) = true →
      processSelectorPost sp eng m a f = a) ∧
    (markOf a.doc.nodes f.container = FbMark.hiddenTrue →
      (processSelectorPost sp eng m a f).doc = a.doc ∧
      (processTextNode sp eng m a f).doc = a.doc) := by
  constructor
  · intro h
    unfold processSelectorPost
    repeat' split
    all_goals try rfl
  · intro h
    have hb : isBlockedMark (markOf a.doc.nodes f.container) = true := by
      simp [isBlockedMark, h]
    constructor
    · unfold processSelectorPost
      repeat' split
      all_goals try rfl
    · unfold processTextNode
      repeat' split
      all_goals try rfl

/-- Witness for `scan_noop_on_hidden_container` at a concrete hidden
container. -/
theorem scan_noop_on_hidden_container_witness :
    processSelectorPost true engW mFoo ⟨d2, [], 0⟩ ⟨0, 0, "foo", []⟩ = ⟨d2, [], 0⟩ ∧
    (processTextNode true engW mFoo ⟨d2, [], 0⟩ fragFoo).doc = d2 := by
  exact ⟨(scan_noop_on_hidden_container true engW mFoo ⟨d2, [], 0⟩
      ⟨0, 0, "foo", []⟩).1 (by decide),
    ((scan_noop_on_hidden_container true engW mFoo ⟨d2, [], 0⟩ fragFoo).2
      (by decide)).2⟩

/-- Counterexample to C4 as stated: a text node inside a Hidden container is
matched first — one matcher call happens — and only then is the container's
record consulted (the run is still a no-op on the document). -/
theorem matcher_called_before_record_check :
    markOf d2.nodes 0 = FbMark.hiddenTrue ∧
    (processTextNode true engW mFoo ⟨d2, [], 0⟩ fragFoo).calls = 1 ∧
    (processTextNode true engW mFoo ⟨d2, [], 0⟩ fragFoo).doc = d2 := by
  exact ⟨by decide, by decide, by decide⟩

/-- The safety slice is idempotent on the keyword list. -/
theorem safeKeywords_take (m : KeywordMatcher) :
    safeKeywords ⟨m.keywords.take MAX_KEYWORDS, m.whitelist⟩ = safeKeywords m := by
  unfold safeKeywords
  simp [List.take_take]

/-- Truncation does not change the plain pieces. -/
theorem plainPieces_take (m : KeywordMatcher) :
    plainPiecesOf ⟨m.keywords.take MAX_KEYWORDS, m.whitelist⟩ = plainPiecesOf m := by
  unfold plainPiecesOf
  rw [safeKeywords_take]

/-- Truncation does not change the pattern-rule matchers. -/
theorem regexPatterns_take (eng : RegexEngine) (m : KeywordMatcher) :
    regexPatternsOf eng ⟨m.keywords.take MAX_KEYWORDS, m.whitelist⟩ =
      regexPatternsOf eng m := by
  unfold regexPatternsOf
  rw [safeKeywords_take]

/-- Truncation does not change the compiled literal regex. -/
theorem compiledRegex_take (m : KeywordMatcher) :
    compiledRegexOf ⟨m.keywords.take MAX_KEYWORDS, m.whitelist⟩ =
      compiledRegexOf m := by
  unfold compiledRegexOf
  rw [plainPieces_take]

/-- The safety slice preserves emptiness of the keyword list. -/
theorem take_isEmpty (m : KeywordMatcher) :
    (m.keywords.take MAX_KEYWORDS).isEmpty = m.keywords.isEmpty := by
  cases hk : m.keywords with
  | nil => rfl
  | cons a l =>
    have h5 : (5000 : Nat) = 4999 + 1 := rfl
    show (List.take 5000 (a :: l)).isEmpty = (a :: l).isEmpty
    rw [h5, List.take_succ_cons]
    rfl

/-- Truncation does not change the whitelist regex. -/
theorem whitelistRegex_take (m : KeywordMatcher) :
    whitelistRegexOf ⟨m.keywords.take MAX_KEYWORDS, m.whitelist⟩ =
      whitelistRegexOf m := by
  unfold whitelistRegexOf
  rw [show (⟨m.keywords.take MAX_KEYWORDS, m.whitelist⟩ : KeywordMatcher).keywords.isEmpty
      = m.keywords.isEmpty from take_isEmpty m]

/-- C8 (amended): overflow containment — truncating at the 5000-rule limit
never changes the matcher's behaviour (so extra rules beyond the limit match
nothing); every literal rule inside the limit whose text is nonempty and not
whitelisted does match its own text whenever the merged pattern compiled; but
when the merged pattern exceeds `MAX_PATTERN_SIZE` the literal matcher is
dropped entirely (null), so no literal rule matches, not even those within
the limit; in no case does compilation throw. -/
theorem overflow_containment :
    (∀ (eng : RegexEngine) (m : KeywordMatcher) (text : String),
      KeywordMatcher.matches eng ⟨m.keywords.take MAX_KEYWORDS, m.whitelist⟩ text =
        KeywordMatcher.matches eng m text) ∧
    (∀ (eng : RegexEngine) (m : KeywordMatcher) (r : KeywordRule),
      r ∈ safeKeywords m → r.isRegex = false → r.text ≠ "" →
      whitelistHit m r.text = false → (compiledRegexOf m).isSome →
      KeywordMatcher.matches eng m r.text = true) ∧
    (∀ m : KeywordMatcher,
      MAX_PATTERN_SIZE < (mergedPattern (plainPiecesOf m)).length →
      compiledRegexOf m = none) := by
  refine ⟨?_, ?_, ?_⟩
  · intro eng m text
    unfold KeywordMatcher.matches whitelistHit
    rw [compiledRegex_take, regexPatterns_take, whitelistRegex_take]
  · intro eng m r hmem hreg hne hwl hsome
    obtain ⟨ps, hps⟩ := Option.isSome_iff_exists.mp hsome
    have hpieces : ps = plainPiecesOf m := by
      simp only [compiledRegexOf] at hps
      split at hps
      · simp at hps
      · split at hps
        · simp at hps
        · injection hps with h
          exact h.symm
    have hmem2 : escapeRegExp r.text ∈ plainPiecesOf m := by
      unfold plainPiecesOf
      exact List.mem_filterMap.mpr ⟨r, hmem, by simp [hreg]⟩
    have hTe : r.text.isEmpty = false := by
      cases h : r.text.isEmpty
      · rfl
      · exact absurd ((String.isEmpty_iff r.text).mp h) hne
    have hself : litMatchAt r.text.data 0 r.text.data = true := by
      have hg : r.text.data.get? (0 + r.text.data.length) = none := by
        rw [Nat.zero_add]
        exact List.get?_eq_none.mpr (Nat.le_refl _)
      have hg2 : r.text.data[r.text.length]? = none :=
        List.getElem?_eq_none (Nat.le_refl _)
      simp [litMatchAt, ciEq, noAlnumAt, hg, hg2]
    have halt : alternationTest ps r.text = true := by
      rw [hpieces]
      unfold alternationTest
      rw [List.any_eq_true]
      refine ⟨0, List.mem_range.mpr (Nat.succ_pos _), ?_⟩
      rw [List.any_eq_true]
      refine ⟨escapeRegExp r.text, hmem2, ?_⟩
      unfold pieceTestAt
      rw [show (escapeRegExp r.text).data = escapeList r.text.data from rfl,
        decodePiece_escapeList]
      exact hself
    unfold KeywordMatcher.matches
    rw [hps]
    simp [hTe, hwl, halt]
  · intro m h
    simp [compiledRegexOf, h]

/-- Witness for `overflow_containment` at concrete rule sets. -/
theorem overflow_containment_witness :
    KeywordMatcher.matches engW ⟨mFoo.keywords.take MAX_KEYWORDS, mFoo.whitelist⟩
      "bar" = KeywordMatcher.matches engW mFoo "bar" ∧
    KeywordMatcher.matches engW mBook "book" = true := by
  refine ⟨overflow_containment.1 engW mFoo "bar", ?_⟩
  exact overflow_containment.2.1 engW mBook ⟨"book", false⟩ (by decide) rfl
    (by decide) (by decide) (by decide)

/-- A single keyword made of 1048577 letters "a", large enough that the merged
pattern exceeds `MAX_PATTERN_SIZE`. -/
def bigA : String := String.mk (List.replicate 1048577 'a')

/-- The one-rule matcher holding `bigA`. -/
def mBig : KeywordMatcher := ⟨[⟨bigA, false⟩], []⟩

/-- Escaping leaves a run of the letter "a" unchanged. -/
theorem escapeList_replicate_a (n : Nat) :
    escapeList (List.replicate n 'a') = List.replicate n 'a' := by
  induction n with
  | zero => rfl
  | succ k ih =>
    have hm : isMetaChar 'a' = false := by decide
    simp [List.replicate_succ, escapeList, escapeChar, hm, ih]

/-- Escaping leaves `bigA` unchanged (no metacharacters). -/
theorem escape_bigA : escapeRegExp bigA = bigA := by
  have h : bigA.data = List.replicate 1048577 'a' := rfl
  unfold escapeRegExp
  rw [h, escapeList_replicate_a]
  rfl

/-- The plain pieces of `mBig`. -/
theorem pieces_mBig : plainPiecesOf mBig = [bigA] := by
  have hp : plainPiecesOf mBig = [escapeRegExp bigA] := rfl
  rw [hp, escape_bigA]

/-- The merged pattern around `bigA` exceeds the size limit. -/
theorem merged_mBig_length : (mergedPattern [bigA]).length = 1048612 := by
  rw [mergedPattern_single_length]
  have hb : bigA.length = 1048577 := by
    show (List.replicate 1048577 'a').length = 1048577
    exact List.length_replicate _ _
  omega

/-- Compilation of `mBig` aborts: the literal regex is null. -/
theorem compiled_mBig : compiledRegexOf mBig = none := by
  have hlt : MAX_PATTERN_SIZE < (mergedPattern [bigA]).length := by
    rw [merged_mBig_length]
    norm_num [MAX_PATTERN_SIZE]
  simp only [compiledRegexOf, pieces_mBig]
  rw [if_neg (by simp), if_pos hlt]

/-- `mBig` has no pattern rules. -/
theorem patterns_mBig (eng : RegexEngine) : regexPatternsOf eng mBig = [] := rfl

/-- Counterexample to C8 as stated: this rule set is within the 5000-rule
count limit but its merged pattern exceeds 1MB, and after the size abort its
single rule — a rule "up to the limit" — matches nothing, not even its own
text. -/
theorem oversized_pattern_matches_nothing :
    mBig.keywords.length ≤ MAX_KEYWORDS ∧
    compiledRegexOf mBig = none ∧
    KeywordMatcher.matches engW mBig bigA = false := by
  refine ⟨?_, compiled_mBig, ?_⟩
  · rw [show mBig.keywords.length = 1 from rfl]
    norm_num [MAX_KEYWORDS]
  · unfold KeywordMatcher.matches
    rw [compiled_mBig, patterns_mBig]
    simp

/-- Fold preservation: an invariant preserved by each step is preserved by
the whole fold. -/
theorem foldl_preserve {α β : Type} (P : α → Prop) (g : α → β → α)
    (h : ∀ a b, P a → P (g a b)) :
    ∀ (l : List β) (a : α), P a → P (l.foldl g a) := by
  intro l
  induction l with
  | nil => intro a ha; exact ha
  | cons b t ih => intro a ha; exact ih _ (h a b ha)

/-- Projection of a document literal. -/
theorem nodes_mk (l : List DomNode) (st : Nat) : (Doc.mk l st).nodes = l := rfl

/-- Updating one node leaves every other index unchanged. -/
theorem nodeAt_set_ne (l : List DomNode) (k c : Nat) (f : DomNode → DomNode)
    (h : k ≠ c) : nodeAt (setNode l k f) c = nodeAt l c := by
  unfold nodeAt setNode
  rw [List.get?_set_ne _ _ h]

/-- An update that never touches the post marker preserves `markOf`
everywhere. -/
theorem mark_preserved_set (l : List DomNode) (k c : Nat) (f : DomNode → DomNode)
    (hf : ∀ n, (f n).mark = n.mark) : markOf (setNode l k f) c = markOf l c := by
  by_cases hk : k = c
  · subst hk
    unfold markOf nodeAt setNode
    rw [List.get?_set_eq]
    cases hg : l.get? k with
    | none => simp [hg]
    | some v =>
      have hv : nodeAt l k = v := by
        unfold nodeAt
        rw [hg]
        rfl
      simp [hg, hf, hv]
  · unfold markOf
    rw [nodeAt_set_ne l k c f hk]

/-- `hidePost` changes no other container's marker. -/
theorem markOf_hidePost_ne (sp : Bool) (d : Doc) (k c : Nat) (h : k ≠ c) :
    markOf (hidePost sp d k).nodes c = markOf d.nodes c := by
  unfold hidePost
  split
  · unfold markOf
    rw [nodeAt_set_ne _ _ _ _ h]
  · unfold markOf
    rw [nodeAt_set_ne _ _ _ _ h]

/-- `hideComment` never touches any post marker. -/
theorem markOf_hideComment (sp : Bool) (d : Doc) (k c : Nat) :
    markOf (hideComment sp d k).nodes c = markOf d.nodes c := by
  unfold hideComment
  split
  · rw [nodes_mk]
    apply mark_preserved_set
    intro n
    rfl
  · rw [nodes_mk]
    apply mark_preserved_set
    intro n
    rfl

/-- The selector scan never takes a container out of the Shown state. -/
theorem shown_processSelectorPost (sp : Bool) (eng : RegexEngine)
    (m : KeywordMatcher) (c : Nat) (a : ScanAcc) (f : Fragment)
    (h : markOf a.doc.nodes c = FbMark.shown) :
    markOf (processSelectorPost sp eng m a f).doc.nodes c = FbMark.shown := by
  unfold processSelectorPost
  split_ifs with hA hB hC hD hE hF
  all_goals try exact h
  all_goals
    show markOf (hidePost sp a.doc f.container).nodes c = FbMark.shown
  all_goals
    refine Eq.trans (markOf_hidePost_ne sp a.doc f.container c ?_) h
  all_goals intro he
  all_goals subst he
  all_goals simp_all [isBlockedMark]

/-- The text-node scan never takes a container out of the Shown state. -/
theorem shown_processTextNode (sp : Bool) (eng : RegexEngine)
    (m : KeywordMatcher) (c : Nat) (a : ScanAcc) (f : Fragment)
    (h : markOf a.doc.nodes c = FbMark.shown) :
    markOf (processTextNode sp eng m a f).doc.nodes c = FbMark.shown := by
  unfold processTextNode
  split_ifs with hA hB hC hD hE hF hG hH hI
  all_goals try exact h
  all_goals
    show markOf (hidePost sp a.doc f.container).nodes c = FbMark.shown
  all_goals
    refine Eq.trans (markOf_hidePost_ne sp a.doc f.container c ?_) h
  all_goals intro he
  all_goals subst he
  all_goals simp_all [isBlockedMark]

/-- The comment scan never touches any post marker. -/
theorem shown_processComment (sp : Bool) (eng : RegexEngine)
    (m : KeywordMatcher) (c : Nat) (a : ScanAcc) (f : Fragment)
    (h : markOf a.doc.nodes c = FbMark.shown) :
    markOf (processComment sp eng m a f).doc.nodes c = FbMark.shown := by
  unfold processComment
  split_ifs with hA hB hC hD
  all_goals try exact h
  all_goals
    show markOf (hideComment sp a.doc f.elem).nodes c = FbMark.shown
  all_goals rw [markOf_hideComment]
  all_goals exact h

/-- The comment pass preserves the Shown state. -/
theorem shown_filterComments (e bc sp : Bool) (eng : RegexEngine)
    (m : KeywordMatcher) (comFs : List Fragment) (c : Nat) (a : ScanAcc)
    (h : markOf a.doc.nodes c = FbMark.shown) :
    markOf (filterComments e bc sp eng m comFs a).doc.nodes c = FbMark.shown := by
  unfold filterComments
  split
  · exact h
  · exact foldl_preserve (fun a => markOf a.doc.nodes c = FbMark.shown)
      (processComment sp eng m)
      (fun a f ha => shown_processComment sp eng m c a f ha) comFs a h

/-- A whole scan preserves the Shown state of every container. -/
theorem shown_filterContent (e bc sp : Bool) (eng : RegexEngine)
    (m : KeywordMatcher) (selFs nodeFs comFs : List Fragment) (d : Doc) (c : Nat)
    (h : markOf d.nodes c = FbMark.shown) :
    markOf (filterContent e bc sp eng m selFs nodeFs comFs d).1.nodes c =
      FbMark.shown := by
  unfold filterContent
  split
  · exact h
  · have h1 := foldl_preserve (fun a => markOf a.doc.nodes c = FbMark.shown)
      (processSelectorPost sp eng m)
      (fun a f ha => shown_processSelectorPost sp eng m c a f ha) selFs
      ⟨d, [], 0⟩ h
    have h2 := foldl_preserve (fun a => markOf a.doc.nodes c = FbMark.shown)
      (processTextNode sp eng m)
      (fun a f ha => shown_processTextNode sp eng m c a f ha) nodeFs _ h1
    exact shown_filterComments e bc sp eng m comFs c _ h2

/-- A reveal click never takes any container out of the Shown state. -/
theorem shown_revealPost (d : Doc) (k c : Nat)
    (h : markOf d.nodes c = FbMark.shown) :
    markOf (revealPost d k).nodes c = FbMark.shown := by
  unfold revealPost
  split
  · exact h
  · by_cases hk : k = c
    · subst hk
      unfold markOf nodeAt setNode
      rw [List.get?_set_eq]
      cases hg : d.nodes.get? k
      · unfold markOf nodeAt at h
        rw [hg] at h
        exact absurd h (by decide)
      · simp [hg]
    · unfold markOf
      rw [nodeAt_set_ne _ _ _ _ hk]
      exact h

/-- A comment reveal never touches any post marker. -/
theorem shown_revealComment (d : Doc) (k c : Nat)
    (h : markOf d.nodes c = FbMark.shown) :
    markOf (revealComment d k).nodes c = FbMark.shown := by
  unfold revealComment
  split
  · exact h
  · rw [nodes_mk]
    refine Eq.trans ?_ h
    apply mark_preserved_set
    intro n
    rfl

/-- Every non-reset engine operation preserves the Shown state. -/
theorem shown_runOp (eng : RegexEngine) (d : Doc) (c : Nat) (op : EngineOp)
    (hop : op ≠ EngineOp.reset) (h : markOf d.nodes c = FbMark.shown) :
    markOf (runOp eng d op).nodes c = FbMark.shown := by
  cases op with
  | scan e bc sp m selFs nodeFs comFs =>
    exact shown_filterContent e bc sp eng m selFs nodeFs comFs d c h
  | revealP k => exact shown_revealPost d k c h
  | revealC k => exact shown_revealComment d k c h
  | reset => exact absurd rfl hop

/-- Every reset-free operation sequence preserves the Shown state. -/
theorem shown_runOps (eng : RegexEngine) (c : Nat) :
    ∀ (ops : List EngineOp) (d : Doc), markOf d.nodes c = FbMark.shown →
    EngineOp.reset ∉ ops → markOf (runOps eng d ops).nodes c = FbMark.shown := by
  intro ops
  induction ops with
  | nil => intro d h _; exact h
  | cons op t ih =>
    intro d h hmem
    have hop : op ≠ EngineOp.reset := by
      intro he
      exact hmem (he ▸ List.mem_cons_self op t)
    have ht : EngineOp.reset ∉ t := fun hm => hmem (List.mem_cons_of_mem op hm)
    exact ih (runOp eng d op) (shown_runOp eng d c op hop h) ht

/-- The global reset clears the post marker of every in-document container. -/
theorem reset_clears_mark (d' : Doc) (c : Nat)
    (hrem : (nodeAt d'.nodes c).removed = false) (hc : c < d'.nodes.length) :
    markOf (resetHiddenPosts d').nodes c = FbMark.absent := by
  obtain ⟨n, hn⟩ : ∃ n, d'.nodes.get? c = some n := by
    cases hg : d'.nodes.get? c
    · exact absurd (List.get?_eq_none.mp hg) (Nat.not_le.mpr hc)
    · exact ⟨_, rfl⟩
  have hnn : nodeAt d'.nodes c = n := by
    unfold nodeAt
    rw [hn]
    rfl
  rw [hnn] at hrem
  unfold resetHiddenPosts markOf nodeAt
  rw [List.get?_map, hn]
  simp only [Option.map_some', Option.getD_some]
  rw [if_neg (by simp [hrem])]
  split_ifs <;> simp_all

/-- C5 (confirmed): reveal stickiness — once a container is Shown, no
subsequent scan (with any rule set), reveal click, or comment operation
re-hides it; only the explicit global reset takes it back to Untouched
(clearing the marker of every in-document container). -/
theorem reveal_stickiness (eng : RegexEngine) (d : Doc) (c : Nat)
    (ops : List EngineOp) (h1 : markOf d.nodes c = FbMark.shown)
    (h2 : EngineOp.reset ∉ ops) :
    markOf (runOps eng d ops).nodes c = FbMark.shown ∧
    (∀ d' : Doc, (nodeAt d'.nodes c).removed = false → c < d'.nodes.length →
      markOf (resetHiddenPosts d').nodes c = FbMark.absent) := by
  exact ⟨shown_runOps eng c ops d h1 h2,
    fun d' hrem hc => reset_clears_mark d' c hrem hc⟩

/-- A one-container document whose container is Shown. -/
def dShown : Doc := ⟨[shownNode], 0⟩

/-- A reset-free operation sequence: a scan whose fragments match the
container's text, then a reveal click. -/
def opsW : List EngineOp :=
  [EngineOp.scan true true true mFoo [⟨0, 0, "foo", []⟩] [⟨0, 0, "foo", []⟩] [],
   EngineOp.revealP 0]

/-- Witness for `reveal_stickiness` at a concrete Shown container. -/
theorem reveal_stickiness_witness :
    markOf (runOps engW dShown opsW).nodes 0 = FbMark.shown ∧
    markOf (resetHiddenPosts d2).nodes 0 = FbMark.absent := by
  have h := reveal_stickiness engW dShown 0 opsW (by decide) (by decide)
  exact ⟨h.1, h.2 d2 (by decide) (by decide)⟩

/-- Updating another index preserves a node lookup. -/
theorem frozen_set_ne (l : List DomNode) (k c : Nat) (f : DomNode → DomNode)
    (fz : DomNode) (h : l.get? c = some fz) (hk : k ≠ c) :
    (setNode l k f).get? c = some fz := by
  unfold setNode
  rw [List.get?_set_ne _ _ hk]
  exact h

/-- `hidePost` aimed at an in-document container never touches a removed
node. -/
theorem frozen_hidePost (sp : Bool) (d : Doc) (k c : Nat) (fz : DomNode)
    (hfz : fz.removed = true) (h : d.nodes.get? c = some fz)
    (hk : (nodeAt d.nodes k).removed = false) :
    (hidePost sp d k).nodes.get? c = some fz := by
  have hne : k ≠ c := by
    intro he
    subst he
    unfold nodeAt at hk
    rw [h] at hk
    simp [hfz] at hk
  unfold hidePost
  split
  · rw [nodes_mk]
    exact frozen_set_ne _ _ _ _ _ h hne
  · rw [nodes_mk]
    exact frozen_set_ne _ _ _ _ _ h hne

/-- `hideComment` aimed at an in-document comment never touches a removed
node. -/
theorem frozen_hideComment (sp : Bool) (d : Doc) (k c : Nat) (fz : DomNode)
    (hfz : fz.removed = true) (h : d.nodes.get? c = some fz)
    (hk : (nodeAt d.nodes k).removed = false) :
    (hideComment sp d k).nodes.get? c = some fz := by
  have hne : k ≠ c := by
    intro he
    subst he
    unfold nodeAt at hk
    rw [h] at hk
    simp [hfz] at hk
  unfold hideComment
  split
  · rw [nodes_mk]
    exact frozen_set_ne _ _ _ _ _ h hne
  · rw [nodes_mk]
    exact frozen_set_ne _ _ _ _ _ h hne

/-- The selector scan never touches a removed node. -/
theorem frozen_processSelectorPost (sp : Bool) (eng : RegexEngine)
    (m : KeywordMatcher) (c : Nat) (fz : DomNode) (hfz : fz.removed = true)
    (a : ScanAcc) (f : Fragment) (h : a.doc.nodes.get? c = some fz) :
    (processSelectorPost sp eng m a f).doc.nodes.get? c = some fz := by
  unfold processSelectorPost
  split_ifs with hA hB hC hD hE hF
  all_goals try exact h
  all_goals
    show (hidePost sp a.doc f.container).nodes.get? c = some fz
  all_goals
    refine frozen_hidePost sp a.doc f.container c fz hfz h ?_
  all_goals simp_all

/-- The text-node scan never touches a removed node. -/
theorem frozen_processTextNode (sp : Bool) (eng : RegexEngine)
    (m : KeywordMatcher) (c : Nat) (fz : DomNode) (hfz : fz.removed = true)
    (a : ScanAcc) (f : Fragment) (h : a.doc.nodes.get? c = some fz) :
    (processTextNode sp eng m a f).doc.nodes.get? c = some fz := by
  unfold processTextNode
  split_ifs with hA hB hC hD hE hF hG hH hI
  all_goals try exact h
  all_goals
    show (hidePost sp a.doc f.container).nodes.get? c = some fz
  all_goals
    refine frozen_hidePost sp a.doc f.container c fz hfz h ?_
  all_goals simp_all

/-- The comment scan never touches a removed node. -/
theorem frozen_processComment (sp : Bool) (eng : RegexEngine)
    (m : KeywordMatcher) (c : Nat) (fz : DomNode) (hfz : fz.removed = true)
    (a : ScanAcc) (f : Fragment) (h : a.doc.nodes.get? c = some fz) :
    (processComment sp eng m a f).doc.nodes.get? c = some fz := by
  unfold processComment
  split_ifs with hA hB hC hD
  all_goals try exact h
  all_goals
    show (hideComment sp a.doc f.elem).nodes.get? c = some fz
  all_goals
    refine frozen_hideComment sp a.doc f.elem c fz hfz h ?_
  all_goals simp_all

/-- The comment pass never touches a removed node. -/
theorem frozen_filterComments (e bc sp : Bool) (eng : RegexEngine)
    (m : KeywordMatcher) (comFs : List Fragment) (c : Nat) (fz : DomNode)
    (hfz : fz.removed = true) (a : ScanAcc) (h : a.doc.nodes.get? c = some fz) :
    (filterComments e bc sp eng m comFs a).doc.nodes.get? c = some fz := by
  unfold filterComments
  split
  · exact h
  · exact foldl_preserve (fun a : ScanAcc => a.doc.nodes.get? c = some fz)
      (processComment sp eng m)
      (fun a f ha => frozen_processComment sp eng m c fz hfz a f ha) comFs a h

/-- A whole scan never touches a removed node. -/
theorem frozen_filterContent (e bc sp : Bool) (eng : RegexEngine)
    (m : KeywordMatcher) (selFs nodeFs comFs : List Fragment) (d : Doc)
    (c : Nat) (fz : DomNode) (hfz : fz.removed = true)
    (h : d.nodes.get? c = some fz) :
    (filterContent e bc sp eng m selFs nodeFs comFs d).1.nodes.get? c =
      some fz := by
  unfold filterContent
  split
  · exact h
  · have h1 := foldl_preserve (fun a : ScanAcc => a.doc.nodes.get? c = some fz)
      (processSelectorPost sp eng m)
      (fun a f ha => frozen_processSelectorPost sp eng m c fz hfz a f ha) selFs
      ⟨d, [], 0⟩ h
    have h2 := foldl_preserve (fun a : ScanAcc => a.doc.nodes.get? c = some fz)
      (processTextNode sp eng m)
      (fun a f ha => frozen_processTextNode sp eng m c fz hfz a f ha) nodeFs _ h1
    exact frozen_filterComments e bc sp eng m comFs c fz hfz _ h2

/-- A reveal click never touches a removed node (it has no live
placeholder). -/
theorem frozen_revealPost (d : Doc) (k c : Nat) (fz : DomNode)
    (hfz : fz.removed = true) (h : d.nodes.get? c = some fz) :
    (revealPost d k).nodes.get? c = some fz := by
  unfold revealPost
  split
  · exact h
  · rw [nodes_mk]
    refine frozen_set_ne _ _ _ _ _ h ?_
    intro he
    subst he
    have hv : nodeAt d.nodes k = fz := by
      unfold nodeAt
      rw [h]
      rfl
    simp_all

/-- A comment reveal never touches a removed node. -/
theorem frozen_revealComment (d : Doc) (k c : Nat) (fz : DomNode)
    (hfz : fz.removed = true) (h : d.nodes.get? c = some fz) :
    (revealComment d k).nodes.get? c = some fz := by
  unfold revealComment
  split
  · exact h
  · rw [nodes_mk]
    refine frozen_set_ne _ _ _ _ _ h ?_
    intro he
    subst he
    have hv : nodeAt d.nodes k = fz := by
      unfold nodeAt
      rw [h]
      rfl
    simp_all

/-- The global reset skips removed nodes entirely. -/
theorem frozen_reset (d : Doc) (c : Nat) (fz : DomNode)
    (hfz : fz.removed = true) (h : d.nodes.get? c = some fz) :
    (resetHiddenPosts d).nodes.get? c = some fz := by
  unfold resetHiddenPosts
  rw [nodes_mk, List.get?_map, h]
  simp [hfz]

/-- No engine operation ever touches a removed node. -/
theorem frozen_runOp (eng : RegexEngine) (d : Doc) (c : Nat) (fz : DomNode)
    (op : EngineOp) (hfz : fz.removed = true) (h : d.nodes.get? c = some fz) :
    (runOp eng d op).nodes.get? c = some fz := by
  cases op with
  | scan e bc sp m selFs nodeFs comFs =>
    exact frozen_filterContent e bc sp eng m selFs nodeFs comFs d c fz hfz h
  | revealP k => exact frozen_revealPost d k c fz hfz h
  | revealC k => exact frozen_revealComment d k c fz hfz h
  | reset => exact frozen_reset d c fz hfz h

/-- No operation sequence ever touches a removed node. -/
theorem frozen_runOps (eng : RegexEngine) (c : Nat) (fz : DomNode)
    (hfz : fz.removed = true) :
    ∀ (ops : List EngineOp) (d : Doc), d.nodes.get? c = some fz →
    (runOps eng d ops).nodes.get? c = some fz := by
  intro ops
  induction ops with
  | nil => intro d h; exact h
  | cons op t ih =>
    intro d h
    exact ih _ (frozen_runOp eng d c fz op hfz h)

/-- C9 (confirmed): with the placeholder feature disabled, hiding a matched
post (or comment) removes the element from the document instead of hiding
it — the block event still fires, but no marker, no saved display value and
no reveal affordance are written; every later operation sequence (scans with
any rule set, reveal clicks, global resets) leaves the removed node exactly
as it is, so it can never transition to Shown and a reset cannot restore
it. -/
theorem remove_mode_no_record (eng : RegexEngine) (d : Doc) (c : Nat)
    (ops : List EngineOp) (hc : c < d.nodes.length)
    (hmark : (nodeAt d.nodes c).mark = FbMark.absent)
    (hpl : (nodeAt d.nodes c).placeholder = false)
    (hod : (nodeAt d.nodes c).originalDisplay = none) :
    nodeAt (hidePost false d c).nodes c = { nodeAt d.nodes c with removed := true } ∧
    (hidePost false d c).stats = d.stats + 1 ∧
    nodeAt (hideComment false d c).nodes c = { nodeAt d.nodes c with removed := true } ∧
    (nodeAt (hidePost false d c).nodes c).mark = FbMark.absent ∧
    (nodeAt (hidePost false d c).nodes c).placeholder = false ∧
    (nodeAt (hidePost false d c).nodes c).originalDisplay = none ∧
    nodeAt (runOps eng (hidePost false d c) ops).nodes c =
      { nodeAt d.nodes c with removed := true } ∧
    markOf (runOps eng (hidePost false d c) ops).nodes c ≠ FbMark.shown := by
  obtain ⟨n, hn⟩ : ∃ n, d.nodes.get? c = some n := by
    cases hg : d.nodes.get? c
    · exact absurd (List.get?_eq_none.mp hg) (Nat.not_le.mpr hc)
    · exact ⟨_, rfl⟩
  have hAt : ∀ (l : List DomNode) (x : DomNode), l.get? c = some x →
      nodeAt l c = x := by
    intro l x hx
    unfold nodeAt
    rw [hx]
    rfl
  have hset : (hidePost false d c).nodes.get? c =
      some { nodeAt d.nodes c with removed := true } := by
    unfold hidePost
    rw [if_pos (show (!false) = true from rfl), nodes_mk]
    unfold setNode
    rw [List.get?_set_eq, hn]
    rfl
  have hsetc : (hideComment false d c).nodes.get? c =
      some { nodeAt d.nodes c with removed := true } := by
    unfold hideComment
    rw [if_pos (show (!false) = true from rfl), nodes_mk]
    unfold setNode
    rw [List.get?_set_eq, hn]
    rfl
  have hfz : ({ nodeAt d.nodes c with removed := true } : DomNode).removed = true :=
    rfl
  have hrun := frozen_runOps eng c _ hfz ops _ hset
  refine ⟨hAt _ _ hset, rfl, hAt _ _ hsetc, ?_, ?_, ?_, hAt _ _ hrun, ?_⟩
  · rw [hAt _ _ hset]
    exact hmark
  · rw [hAt _ _ hset]
    exact hpl
  · rw [hAt _ _ hset]
    exact hod
  · unfold markOf
    rw [hAt _ _ hrun]
    rw [show ({ nodeAt d.nodes c with removed := true } : DomNode).mark =
      (nodeAt d.nodes c).mark from rfl, hmark]
    exact (by decide)

/-- Witness for `remove_mode_no_record` at a concrete untouched container,
running a reset, a reveal click and a scan after the removal. -/
theorem remove_mode_no_record_witness :
    nodeAt (hidePost false d1 0).nodes 0 = { nodeAt d1.nodes 0 with removed := true } ∧
    markOf (runOps engW (hidePost false d1 0)
      [EngineOp.reset, EngineOp.revealP 0,
       EngineOp.scan true true true mFoo [] [fragFoo] []]).nodes 0 ≠
      FbMark.shown := by
  have h := remove_mode_no_record engW d1 0
    [EngineOp.reset, EngineOp.revealP 0,
     EngineOp.scan true true true mFoo [] [fragFoo] []]
    (by decide) (by decide) (by decide) (by decide)
  exact ⟨h.1, h.2.2.2.2.2.2.2⟩
